import Mathlib

/-!
Shallow embedding of the employee data-grid repository:
the client-side `DataTable` component (filter → sort → paginate pipeline,
sort-header state machine, selection state machine) and the server-side
`MemStorage` record store (get / create / update / delete over an
insertion-ordered map).

Strings are Lean `String`s; `toLowerCase` is modelled character-wise by
`Char.toLower`; `localeCompare` is modelled as code-point lexicographic
comparison (no claim depends on the locale order of strings); JavaScript's
stable in-place `Array.sort(comparator)` is modelled by `List.mergeSort`
with the predicate `comparator a b ≤ 0`; `Set<string>` is modelled by
`Finset String`; the insertion-ordered `Map<string, Employee>` is modelled
by an association list with JS `Map.set` / `Map.delete` semantics.
(`List.insertionSort` is used as the stable sort: for the total,
transitive orders the claims exercise, every stable sort produces the
same output list.)
-/

namespace DataGrid

/-- The `Employee` entity, with the fields visible in `storage.ts`
(sample data) and the table component: `id`, `name`, `email`,
`department`, `role`, `salary`, `status`, `avatar` (nullable),
`employeeId`, `createdAt` (timestamp modelled as `Nat`). -/
structure Employee where
  id : String
  name : String
  email : String
  department : String
  role : String
  salary : Int
  status : String
  avatar : Option String
  employeeId : String
  createdAt : Nat
deriving DecidableEq

/-- Modelled from the spec: the `InsertEmployee` type lives in
`@shared/schema`, which is not among the provided sources.  Per the spec,
`create` "generates a fresh, globally-unique identifier" and "stamps
creation time", so the creation input carries every `Employee` field
except the server-generated `id` and `createdAt`. -/
structure InsertEmployee where
  name : String
  email : String
  department : String
  role : String
  salary : Int
  status : String
  avatar : Option String
  employeeId : String
deriving DecidableEq

/-- Modelled from the spec: `Partial<InsertEmployee>` — each creation
field optionally present (`none` = key absent from the payload). -/
structure EmployeePatch where
  name : Option String
  email : Option String
  department : Option String
  role : Option String
  salary : Option Int
  status : Option String
  avatar : Option (Option String)
  employeeId : Option String
deriving DecidableEq

/-- The empty payload `{}`: no field present. -/
def emptyPatch : EmployeePatch :=
  ⟨none, none, none, none, none, none, none, none⟩

/-! ## View engine: filtering -/

/-- `s.toLowerCase()` as a character list (character-wise lowering). -/
def lowerChars (s : String) : List Char :=
  s.toList.map Char.toLower

/-- `haystack.toLowerCase().includes(searchTerm.toLowerCase())`. -/
def includesCI (haystack searchTerm : String) : Bool :=
  decide (lowerChars searchTerm <:+: lowerChars haystack)

/-- The filter predicate of `filteredAndSortedEmployees`: the search term
matches the row iff it occurs (case-folded) in `name`, `email`,
`department` or `role`. -/
def matchesSearch (employee : Employee) (searchTerm : String) : Bool :=
  includesCI employee.name searchTerm ||
  includesCI employee.email searchTerm ||
  includesCI employee.department searchTerm ||
  includesCI employee.role searchTerm

/-- `employees.filter(...)` — the `let filtered = ...` step. -/
def filteredEmployees (employees : List Employee) (searchTerm : String) :
    List Employee :=
  employees.filter (fun employee => matchesSearch employee searchTerm)

/-! ## View engine: sorting -/

/-- `type SortDirection = 'asc' | 'desc' | null`; `null` is `Option.none`
at the use sites. -/
inductive SortDirection where
  | asc
  | desc
deriving DecidableEq

/-- `type SortColumn = keyof Employee`. -/
inductive SortColumn where
  | id
  | name
  | email
  | department
  | role
  | salary
  | status
  | avatar
  | employeeId
  | createdAt
deriving DecidableEq

/-- The dynamic type of `employee[sortColumn]` as seen by the
comparator's `typeof` dispatch: a string, a number, or anything else
(`null` avatar, `Date` timestamp). -/
inductive JsValue where
  | str (s : String)
  | num (n : Int)
  | other
deriving DecidableEq

/-- `employee[sortColumn]` with its `typeof` classification. -/
def colValue (employee : Employee) : SortColumn → JsValue
  | SortColumn.id => JsValue.str employee.id
  | SortColumn.name => JsValue.str employee.name
  | SortColumn.email => JsValue.str employee.email
  | SortColumn.department => JsValue.str employee.department
  | SortColumn.role => JsValue.str employee.role
  | SortColumn.salary => JsValue.num employee.salary
  | SortColumn.status => JsValue.str employee.status
  | SortColumn.avatar =>
      match employee.avatar with
      | some a => JsValue.str a
      | none => JsValue.other
  | SortColumn.employeeId => JsValue.str employee.employeeId
  | SortColumn.createdAt => JsValue.other

/-- Code-point lexicographic three-way comparison of character lists
(model of `localeCompare`). -/
def charListCompare : List Char → List Char → Int
  | [], [] => 0
  | [], _ :: _ => -1
  | _ :: _, [] => 1
  | a :: as, b :: bs =>
      if a < b then -1 else if b < a then 1 else charListCompare as bs

/-- `a.localeCompare(b)`, modelled as code-point lexicographic order. -/
def strCompare (a b : String) : Int :=
  charListCompare a.toList b.toList

/-- The comparator body: strings via `localeCompare`, numbers via
subtraction, the result negated for descending, everything else equal. -/
def compareVals (dir : SortDirection) (a b : JsValue) : Int :=
  match a, b with
  | JsValue.str x, JsValue.str y =>
      match dir with
      | SortDirection.asc => strCompare x y
      | SortDirection.desc => - strCompare x y
  | JsValue.num x, JsValue.num y =>
      match dir with
      | SortDirection.asc => x - y
      | SortDirection.desc => -(x - y)
  | _, _ => 0

/-- The comparator passed to `filtered.sort`. -/
def compareEmployees (sortColumn : SortColumn) (dir : SortDirection)
    (a b : Employee) : Int :=
  compareVals dir (colValue a sortColumn) (colValue b sortColumn)

/-- The "a stays before b" relation induced by the comparator: the pairs
the sort never swaps. -/
def sortKeeps (sortColumn : SortColumn) (dir : SortDirection)
    (a b : Employee) : Prop :=
  compareEmployees sortColumn dir a b ≤ 0

instance sortKeepsDecidable (sortColumn : SortColumn) (dir : SortDirection) :
    DecidableRel (sortKeeps sortColumn dir) := fun a b =>
  inferInstanceAs (Decidable (compareEmployees sortColumn dir a b ≤ 0))

/-! ## View engine: component state and derived values -/

/-- `type SelectionMode = 'single' | 'multiple' | 'none'`. -/
inductive SelectionMode where
  | single
  | multiple
  | none
deriving DecidableEq

/-- The `useState` cells of the `DataTable` component, plus the fetched
row set. -/
structure TableState where
  employees : List Employee
  searchTerm : String
  sortColumn : SortColumn
  sortDirection : Option SortDirection
  selectedRows : Finset String
  selectionMode : SelectionMode
  currentPage : Nat
  pageSize : Nat

/-- The initial component state: empty search, sort column `'salary'`
with direction `'desc'`, empty selection, mode `'multiple'`, page 1,
page size 10. -/
def initialState (employees : List Employee) : TableState :=
  { employees := employees
    searchTerm := ""
    sortColumn := SortColumn.salary
    sortDirection := some SortDirection.desc
    selectedRows := ∅
    selectionMode := SelectionMode.multiple
    currentPage := 1
    pageSize := 10 }

/-- `filteredAndSortedEmployees`: filter by the search term, then, when a
sort direction is active, stable-sort by the comparator. -/
def filteredAndSortedEmployees (s : TableState) : List Employee :=
  let filtered := filteredEmployees s.employees s.searchTerm
  match s.sortDirection with
  | some dir => filtered.insertionSort (sortKeeps s.sortColumn dir)
  | none => filtered

/-- `totalPages = Math.ceil(filteredAndSortedEmployees.length / pageSize)`
(ceiling division on naturals). -/
def totalPages (s : TableState) : Nat :=
  ((filteredAndSortedEmployees s).length + s.pageSize - 1) / s.pageSize

/-- `array.slice(start, stop)`. -/
def sliceJs (l : List Employee) (start stop : Nat) : List Employee :=
  (l.drop start).take (stop - start)

/-- `paginatedEmployees = filteredAndSortedEmployees.slice((currentPage-1)*pageSize, currentPage*pageSize)`. -/
def paginatedEmployees (s : TableState) : List Employee :=
  sliceJs (filteredAndSortedEmployees s)
    ((s.currentPage - 1) * s.pageSize) (s.currentPage * s.pageSize)

/-! ## View engine: event handlers -/

/-- `handleSort(column)`: on the active column cycle
`asc → desc → null → asc` (the code's ternary plus its redundant
`desc → null` branch); on a different column reset to ascending. -/
def handleSort (s : TableState) (column : SortColumn) : TableState :=
  if s.sortColumn = column then
    match s.sortDirection with
    | some SortDirection.asc =>
        { s with sortDirection := some SortDirection.desc }
    | some SortDirection.desc =>
        { s with sortColumn := column, sortDirection := none }
    | none =>
        { s with sortDirection := some SortDirection.asc }
  else
    { s with sortColumn := column, sortDirection := some SortDirection.asc }

/-- `handleRowSelection(employeeId, checked)`: copy the selection set;
in `single` mode clear it and add the id when checked; in `multiple`
mode add or delete the id; in `none` mode leave the copy untouched. -/
def handleRowSelection (s : TableState) (employeeId : String)
    (checked : Bool) : TableState :=
  let newSelectedRows :=
    match s.selectionMode with
    | SelectionMode.single =>
        if checked then ({employeeId} : Finset String) else (∅ : Finset String)
    | SelectionMode.multiple =>
        if checked then insert employeeId s.selectedRows
        else s.selectedRows.erase employeeId
    | SelectionMode.none => s.selectedRows
  { s with selectedRows := newSelectedRows }

/-- `handleSelectAll(checked)`: only in `multiple` mode, replace the
selection set by a fresh set holding (when checked) exactly the ids of
the rows on the current page. -/
def handleSelectAll (s : TableState) (checked : Bool) : TableState :=
  match s.selectionMode with
  | SelectionMode.multiple =>
      let base : Finset String := ∅
      let newSelectedRows :=
        if checked then
          (paginatedEmployees s).foldl
            (fun acc employee => insert employee.id acc) base
        else base
      { s with selectedRows := newSelectedRows }
  | _ => s

/-! ## Record store (`MemStorage`) -/

/-- The backing `Map<string, Employee>` as an insertion-ordered
association list. -/
abbrev EmployeeMap := List (String × Employee)

/-- `map.get(id)`. -/
def mapGet : EmployeeMap → String → Option Employee
  | [], _ => none
  | p :: rest, id => if p.1 = id then some p.2 else mapGet rest id

/-- `map.set(id, e)`: replace in place when the key exists (Map keeps
insertion order), otherwise append. -/
def mapSet : EmployeeMap → String → Employee → EmployeeMap
  | [], id, e => [(id, e)]
  | p :: rest, id, e =>
      if p.1 = id then (id, e) :: rest else p :: mapSet rest id e

/-- `map.delete(id)`: remove the entry if present; return whether a
removal occurred, paired with the resulting map. -/
def mapDelete : EmployeeMap → String → Bool × EmployeeMap
  | [], _ => (false, [])
  | p :: rest, id =>
      if p.1 = id then (true, rest)
      else
        let r := mapDelete rest id
        (r.1, p :: r.2)

/-- The id `id` has no entry in the map. -/
def idAbsent (m : EmployeeMap) (id : String) : Prop :=
  ∀ p ∈ m, p.1 ≠ id

instance (m : EmployeeMap) (id : String) : Decidable (idAbsent m id) := by
  unfold idAbsent
  infer_instance

/-- `{...employee, ...updateData}`: each field present in the payload
overwrites the stored one, absent fields keep the stored value; `id` and
`createdAt` are not part of `Partial<InsertEmployee>`, so they are kept. -/
def applyPatch (employee : Employee) (u : EmployeePatch) : Employee :=
  { employee with
    name := u.name.getD employee.name
    email := u.email.getD employee.email
    department := u.department.getD employee.department
    role := u.role.getD employee.role
    salary := u.salary.getD employee.salary
    status := u.status.getD employee.status
    avatar := u.avatar.getD employee.avatar
    employeeId := u.employeeId.getD employee.employeeId }

/-- `getEmployee(id)`. -/
def getEmployee (m : EmployeeMap) (id : String) : Option Employee :=
  mapGet m id

/-- `createEmployee(insertEmployee)`: the generated `randomUUID()` and
the `new Date()` timestamp enter as the explicit arguments `freshId` and
`now`; the stored record is the input plus those generated fields. -/
def createEmployee (m : EmployeeMap) (insertEmployee : InsertEmployee)
    (freshId : String) (now : Nat) : Employee × EmployeeMap :=
  let employee : Employee :=
    { id := freshId
      name := insertEmployee.name
      email := insertEmployee.email
      department := insertEmployee.department
      role := insertEmployee.role
      salary := insertEmployee.salary
      status := insertEmployee.status
      avatar := insertEmployee.avatar
      employeeId := insertEmployee.employeeId
      createdAt := now }
  (employee, mapSet m freshId employee)

/-- `updateEmployee(id, updateData)`: absent id yields `none` and leaves
the map unchanged; otherwise merge the payload onto the record and store
the result. -/
def updateEmployee (m : EmployeeMap) (id : String) (updateData : EmployeePatch) :
    Option Employee × EmployeeMap :=
  match mapGet m id with
  | none => (none, m)
  | some employee =>
      let updated := applyPatch employee updateData
      (some updated, mapSet m id updated)

/-- `deleteEmployee(id)` = `this.employees.delete(id)`. -/
def deleteEmployee (m : EmployeeMap) (id : String) : Bool × EmployeeMap :=
  mapDelete m id

/-! ## Concrete fixtures used by witnesses and counterexamples -/

/-- A minimal employee row with the given id and salary. -/
def mkEmp (id : String) (salary : Int) : Employee :=
  ⟨id, "", "", "", "", salary, "active", Option.none, "", 0⟩

/-- Eleven rows, so that with page size 10 the row with id `"11"` falls
on page 2. -/
def elevenEmps : List Employee :=
  [mkEmp "1" 1, mkEmp "2" 2, mkEmp "3" 3, mkEmp "4" 4, mkEmp "5" 5,
   mkEmp "6" 6, mkEmp "7" 7, mkEmp "8" 8, mkEmp "9" 9, mkEmp "10" 10,
   mkEmp "11" 11]

/-- Mode `multiple`, page 1 of 2, with the page-2 row `"11"` already
selected. -/
def stateSelAll : TableState :=
  { employees := elevenEmps
    searchTerm := ""
    sortColumn := SortColumn.salary
    sortDirection := Option.none
    selectedRows := {"11"}
    selectionMode := SelectionMode.multiple
    currentPage := 1
    pageSize := 10 }

/-- Five rows for the pagination scenarios. -/
def fiveEmps : List Employee :=
  [mkEmp "1" 1, mkEmp "2" 2, mkEmp "3" 3, mkEmp "4" 4, mkEmp "5" 5]

/-- Page size 10, five matching rows, page 2 requested. -/
def statePage2 : TableState :=
  { employees := fiveEmps
    searchTerm := ""
    sortColumn := SortColumn.salary
    sortDirection := Option.none
    selectedRows := ∅
    selectionMode := SelectionMode.multiple
    currentPage := 2
    pageSize := 10 }

/-- Three rows with page size 2: two pages. -/
def statePages : TableState :=
  { employees := [mkEmp "1" 1, mkEmp "2" 2, mkEmp "3" 3]
    searchTerm := ""
    sortColumn := SortColumn.salary
    sortDirection := Option.none
    selectedRows := ∅
    selectionMode := SelectionMode.multiple
    currentPage := 1
    pageSize := 2 }

/-- An engineering row and a sales row for the filter scenarios. -/
def empEng : Employee :=
  ⟨"1", "Sarah", "s@c.com", "Engineering", "Dev", 95000, "active",
   Option.none, "EMP001", 0⟩

/-- The sales row. -/
def empSales : Employee :=
  ⟨"2", "Dave", "d@c.com", "Sales", "Rep", 65000, "active",
   Option.none, "EMP002", 0⟩

/-- A stored record for the storage witnesses. -/
def empStored : Employee :=
  ⟨"1", "Sarah", "s@c.com", "Engineering", "Dev", 95000, "active",
   Option.none, "EMP001", 7⟩

/-- A one-record store. -/
def storeOne : EmployeeMap := [("1", empStored)]

/-- A payload touching `name` and `salary` only. -/
def patchNameSalary : EmployeePatch :=
  ⟨some "Sara", Option.none, Option.none, Option.none, some 99000,
   Option.none, Option.none, Option.none⟩

/-- A creation input for the create witnesses. -/
def inputNew : InsertEmployee :=
  ⟨"New", "n@c.com", "Design", "UX", 78000, "on-leave", Option.none, "EMP009"⟩

/-- Mode `single` state for the selection witnesses. -/
def stateSingle : TableState :=
  { employees := fiveEmps
    searchTerm := ""
    sortColumn := SortColumn.salary
    sortDirection := Option.none
    selectedRows := ∅
    selectionMode := SelectionMode.single
    currentPage := 1
    pageSize := 10 }

/-- Mode `none` state with a nonempty prior selection. -/
def stateNone : TableState :=
  { employees := fiveEmps
    searchTerm := ""
    sortColumn := SortColumn.salary
    sortDirection := Option.none
    selectedRows := {"3"}
    selectionMode := SelectionMode.none
    currentPage := 1
    pageSize := 10 }

/-- Two rows whose filtered order is not ascending by salary. -/
def twoEmpsDesc : List Employee := [mkEmp "1" 2, mkEmp "2" 1]

/-! ## Helper lemmas -/

lemma mapGet_mapSet_self (m : EmployeeMap) (id : String) (e : Employee) :
    mapGet (mapSet m id e) id = some e := by
  induction m with
  | nil => simp [mapSet, mapGet]
  | cons p rest ih =>
      by_cases hp : p.1 = id
      · simp [mapSet, mapGet, hp]
      · simp [mapSet, mapGet, hp, ih]

lemma mapGet_of_absent (m : EmployeeMap) (id : String) (h : idAbsent m id) :
    mapGet m id = none := by
  induction m with
  | nil => rfl
  | cons p rest ih =>
      have hp : p.1 ≠ id := h p (List.mem_cons_self p rest)
      have hrest : idAbsent rest id := fun q hq => h q (List.mem_cons_of_mem p hq)
      simp [mapGet, hp, ih hrest]

lemma mapDelete_of_absent (m : EmployeeMap) (id : String) (h : idAbsent m id) :
    (mapDelete m id).1 = false := by
  induction m with
  | nil => rfl
  | cons p rest ih =>
      have hp : p.1 ≠ id := h p (List.mem_cons_self p rest)
      have hrest : idAbsent rest id := fun q hq => h q (List.mem_cons_of_mem p hq)
      simp [mapDelete, hp, ih hrest]

lemma mem_foldl_insert (l : List Employee) (init : Finset String) (x : String) :
    (x ∈ l.foldl (fun acc employee => insert employee.id acc) init) ↔
      x ∈ init ∨ x ∈ l.map (fun e => e.id) := by
  induction l generalizing init with
  | nil => simp
  | cons e rest ih =>
      rw [List.foldl_cons, ih]
      simp only [Finset.mem_insert, List.map_cons, List.mem_cons]
      tauto

lemma sortKeeps_salary_asc_iff (a b : Employee) :
    sortKeeps SortColumn.salary SortDirection.asc a b ↔ a.salary ≤ b.salary := by
  simp only [sortKeeps, compareEmployees, colValue, compareVals]
  exact sub_nonpos

lemma sortKeeps_salary_desc_iff (a b : Employee) :
    sortKeeps SortColumn.salary SortDirection.desc a b ↔ b.salary ≤ a.salary := by
  simp only [sortKeeps, compareEmployees, colValue, compareVals]
  rw [neg_nonpos]
  exact sub_nonneg

lemma flatMapChunks (L : List Employee) (n : Nat) (k : Nat) :
    (List.range k).flatMap (fun i => (L.drop (i * n)).take n) = L.take (k * n) := by
  induction k with
  | zero => simp
  | succ k ih =>
      rw [List.range_succ, List.flatMap_append, ih, Nat.succ_mul, List.take_add]
      simp

lemma length_le_ceil_mul (len n : Nat) (hn : 0 < n) :
    len ≤ ((len + n - 1) / n) * n := by
  have h1 := Nat.div_add_mod (len + n - 1) n
  have h2 : (len + n - 1) % n < n := Nat.mod_lt _ hn
  have key : ∀ t r : Nat, r < n → t + r = len + n - 1 → len ≤ t := by
    intro t r hr ht
    omega
  rw [Nat.mul_comm]
  exact key _ _ h2 h1

lemma includesCI_empty (f : String) : includesCI f "" = true := by
  rw [includesCI, decide_eq_true_iff]
  have hnil : lowerChars "" = [] := rfl
  rw [hnil]
  exact List.nil_infix

lemma includesCI_mono (f s1 s2 : String) (h : s1.toList <:+: s2.toList)
    (hf : includesCI f s2 = true) : includesCI f s1 = true := by
  rw [includesCI, decide_eq_true_iff] at hf ⊢
  have h12 : lowerChars s1 <:+: lowerChars s2 := List.IsInfix.map Char.toLower h
  exact h12.trans hf

/-! ## Claims -/

/-- C1, counterexample: in mode `multiple`, with the page-2 row `"11"`
already selected, `handleSelectAll true` drops `"11"` from the selection
set even though its row is not on the current page — the claim's frame
condition fails. -/
theorem claim1_counterexample :
    stateSelAll.selectionMode = SelectionMode.multiple ∧
    ("11" ∈ stateSelAll.selectedRows) ∧
    ("11" ∉ (paginatedEmployees stateSelAll).map (fun e => e.id)) ∧
    ("11" ∉ (handleSelectAll stateSelAll true).selectedRows) := by
  decide

/-- C1 (amended): in selection mode `multiple`, `handleSelectAll` with
`checked = true` replaces the selection set with exactly the ids of the
rows on the current page: an id is selected afterwards iff it is the id
of a current-page row; previously selected ids of off-page rows are
removed. -/
theorem claim1_select_all_page_only (s : TableState) (x : String)
    (h : s.selectionMode = SelectionMode.multiple) :
    (x ∈ (handleSelectAll s true).selectedRows ↔
      x ∈ (paginatedEmployees s).map (fun e => e.id)) := by
  simp only [handleSelectAll, h, if_true]
  rw [mem_foldl_insert]
  simp

/-- C1, witness: the amended theorem applied to the concrete state
`stateSelAll` and the current-page id `"1"`. -/
theorem claim1_witness :
    stateSelAll.selectionMode = SelectionMode.multiple ∧
    ("1" ∈ (handleSelectAll stateSelAll true).selectedRows ↔
      "1" ∈ (paginatedEmployees stateSelAll).map (fun e => e.id)) :=
  ⟨rfl, claim1_select_all_page_only stateSelAll "1" rfl⟩

/-- C2, counterexample: the initial state already sorts by `salary`
descending, so the first activation of the `salary` header yields the
unsorted state, not ascending order: with filtered salaries `[2, 1]` the
displayed order after one activation is `[2, 1]`, which is not ascending. -/
theorem claim2_counterexample :
    (filteredAndSortedEmployees
        (handleSort (initialState twoEmpsDesc) SortColumn.salary)).map
        (fun e => e.salary) = [2, 1] ∧
    ¬ List.Sorted (fun a b : Int => a ≤ b)
        ((filteredAndSortedEmployees
            (handleSort (initialState twoEmpsDesc) SortColumn.salary)).map
            (fun e => e.salary)) := by
  decide

/-- C2 (amended): starting from the initial state (column `salary`,
direction `desc`), activating the `salary` header once yields the
unsorted state and the original filtered order; a second activation
yields ascending order by salary (a permutation of the filtered rows);
a third yields descending order by salary. -/
theorem claim2_salary_sort_cycle (employees : List Employee) :
    (handleSort (initialState employees) SortColumn.salary).sortDirection
      = none ∧
    filteredAndSortedEmployees
        (handleSort (initialState employees) SortColumn.salary)
      = filteredEmployees employees "" ∧
    (handleSort (handleSort (initialState employees) SortColumn.salary)
        SortColumn.salary).sortDirection = some SortDirection.asc ∧
    List.Sorted (fun a b => a.salary ≤ b.salary)
      (filteredAndSortedEmployees
        (handleSort (handleSort (initialState employees) SortColumn.salary)
          SortColumn.salary)) ∧
    (filteredAndSortedEmployees
        (handleSort (handleSort (initialState employees) SortColumn.salary)
          SortColumn.salary)).Perm (filteredEmployees employees "") ∧
    (handleSort (handleSort (handleSort (initialState employees)
        SortColumn.salary) SortColumn.salary) SortColumn.salary).sortDirection
      = some SortDirection.desc ∧
    List.Sorted (fun a b => b.salary ≤ a.salary)
      (filteredAndSortedEmployees
        (handleSort (handleSort (handleSort (initialState employees)
          SortColumn.salary) SortColumn.salary) SortColumn.salary)) ∧
    (filteredAndSortedEmployees
        (handleSort (handleSort (handleSort (initialState employees)
          SortColumn.salary) SortColumn.salary) SortColumn.salary)).Perm
      (filteredEmployees employees "") := by
  haveI : IsTotal Employee (sortKeeps SortColumn.salary SortDirection.asc) :=
    ⟨fun a b => by
      rw [sortKeeps_salary_asc_iff, sortKeeps_salary_asc_iff]
      exact le_total a.salary b.salary⟩
  haveI : IsTrans Employee (sortKeeps SortColumn.salary SortDirection.asc) :=
    ⟨fun a b c hab hbc => by
      rw [sortKeeps_salary_asc_iff] at hab hbc ⊢
      exact le_trans hab hbc⟩
  haveI : IsTotal Employee (sortKeeps SortColumn.salary SortDirection.desc) :=
    ⟨fun a b => by
      rw [sortKeeps_salary_desc_iff, sortKeeps_salary_desc_iff]
      exact le_total b.salary a.salary⟩
  haveI : IsTrans Employee (sortKeeps SortColumn.salary SortDirection.desc) :=
    ⟨fun a b c hab hbc => by
      rw [sortKeeps_salary_desc_iff] at hab hbc ⊢
      exact le_trans hbc hab⟩
  refine ⟨rfl, rfl, rfl, ?_, ?_, rfl, ?_, ?_⟩
  · exact List.Pairwise.imp
      (fun hab => (sortKeeps_salary_asc_iff _ _).mp hab)
      (List.sorted_insertionSort
        (sortKeeps SortColumn.salary SortDirection.asc)
        (filteredEmployees employees ""))
  · exact List.perm_insertionSort
      (sortKeeps SortColumn.salary SortDirection.asc)
      (filteredEmployees employees "")
  · exact List.Pairwise.imp
      (fun hab => (sortKeeps_salary_desc_iff _ _).mp hab)
      (List.sorted_insertionSort
        (sortKeeps SortColumn.salary SortDirection.desc)
        (filteredEmployees employees ""))
  · exact List.perm_insertionSort
      (sortKeeps SortColumn.salary SortDirection.desc)
      (filteredEmployees employees "")

/-- C3: for a stored record, `updateEmployee` overwrites exactly the
fields present in the payload and keeps every other field — in
particular `id` and `createdAt` are never altered — and updating with
the empty payload returns the pre-update record unchanged. -/
theorem claim3_update_patch_semantics (m : EmployeeMap) (id : String)
    (e : Employee) (u : EmployeePatch) (h : getEmployee m id = some e) :
    (updateEmployee m id u).1.map Employee.id = some e.id ∧
    (updateEmployee m id u).1.map Employee.createdAt = some e.createdAt ∧
    (updateEmployee m id u).1.map Employee.name = some (u.name.getD e.name) ∧
    (updateEmployee m id u).1.map Employee.email = some (u.email.getD e.email) ∧
    (updateEmployee m id u).1.map Employee.department
      = some (u.department.getD e.department) ∧
    (updateEmployee m id u).1.map Employee.role = some (u.role.getD e.role) ∧
    (updateEmployee m id u).1.map Employee.salary
      = some (u.salary.getD e.salary) ∧
    (updateEmployee m id u).1.map Employee.status
      = some (u.status.getD e.status) ∧
    (updateEmployee m id u).1.map Employee.avatar
      = some (u.avatar.getD e.avatar) ∧
    (updateEmployee m id u).1.map Employee.employeeId
      = some (u.employeeId.getD e.employeeId) ∧
    (updateEmployee m id emptyPatch).1 = some e := by
  have h' : mapGet m id = some e := h
  unfold updateEmployee
  rw [h']
  exact ⟨rfl, rfl, rfl, rfl, rfl, rfl, rfl, rfl, rfl, rfl, rfl⟩

/-- C3, witness: the theorem applied to the one-record store with a
payload touching `name` and `salary`. -/
theorem claim3_witness :
    getEmployee storeOne "1" = some empStored ∧
    ((updateEmployee storeOne "1" patchNameSalary).1.map Employee.id
        = some empStored.id ∧
      (updateEmployee storeOne "1" patchNameSalary).1.map Employee.createdAt
        = some empStored.createdAt ∧
      (updateEmployee storeOne "1" patchNameSalary).1.map Employee.name
        = some (patchNameSalary.name.getD empStored.name) ∧
      (updateEmployee storeOne "1" patchNameSalary).1.map Employee.email
        = some (patchNameSalary.email.getD empStored.email) ∧
      (updateEmployee storeOne "1" patchNameSalary).1.map Employee.department
        = some (patchNameSalary.department.getD empStored.department) ∧
      (updateEmployee storeOne "1" patchNameSalary).1.map Employee.role
        = some (patchNameSalary.role.getD empStored.role) ∧
      (updateEmployee storeOne "1" patchNameSalary).1.map Employee.salary
        = some (patchNameSalary.salary.getD empStored.salary) ∧
      (updateEmployee storeOne "1" patchNameSalary).1.map Employee.status
        = some (patchNameSalary.status.getD empStored.status) ∧
      (updateEmployee storeOne "1" patchNameSalary).1.map Employee.avatar
        = some (patchNameSalary.avatar.getD empStored.avatar) ∧
      (updateEmployee storeOne "1" patchNameSalary).1.map Employee.employeeId
        = some (patchNameSalary.employeeId.getD empStored.employeeId) ∧
      (updateEmployee storeOne "1" emptyPatch).1 = some empStored) :=
  ⟨by decide,
   claim3_update_patch_semantics storeOne "1" empStored patchNameSalary
     (by decide)⟩

/-- C4: `createEmployee` followed by `getEmployee` on the id of the
returned record yields that record, and the record equals the creation
input extended with the freshly generated id and the creation-time
timestamp. -/
theorem claim4_create_then_get (m : EmployeeMap) (input : InsertEmployee)
    (freshId : String) (now : Nat) (h : idAbsent m freshId) :
    getEmployee (createEmployee m input freshId now).2
        (createEmployee m input freshId now).1.id
      = some (createEmployee m input freshId now).1 ∧
    (createEmployee m input freshId now).1.id = freshId ∧
    (createEmployee m input freshId now).1.createdAt = now ∧
    (createEmployee m input freshId now).1.name = input.name ∧
    (createEmployee m input freshId now).1.email = input.email ∧
    (createEmployee m input freshId now).1.department = input.department ∧
    (createEmployee m input freshId now).1.role = input.role ∧
    (createEmployee m input freshId now).1.salary = input.salary ∧
    (createEmployee m input freshId now).1.status = input.status ∧
    (createEmployee m input freshId now).1.avatar = input.avatar ∧
    (createEmployee m input freshId now).1.employeeId = input.employeeId := by
  refine ⟨?_, rfl, rfl, rfl, rfl, rfl, rfl, rfl, rfl, rfl, rfl⟩
  exact mapGet_mapSet_self m freshId _

/-- C4, witness: the theorem applied to the one-record store, a fresh id
`"9"` and timestamp `42`. -/
theorem claim4_witness :
    idAbsent storeOne "9" ∧
    (getEmployee (createEmployee storeOne inputNew "9" 42).2
        (createEmployee storeOne inputNew "9" 42).1.id
      = some (createEmployee storeOne inputNew "9" 42).1 ∧
    (createEmployee storeOne inputNew "9" 42).1.id = "9" ∧
    (createEmployee storeOne inputNew "9" 42).1.createdAt = 42 ∧
    (createEmployee storeOne inputNew "9" 42).1.name = inputNew.name ∧
    (createEmployee storeOne inputNew "9" 42).1.email = inputNew.email ∧
    (createEmployee storeOne inputNew "9" 42).1.department
      = inputNew.department ∧
    (createEmployee storeOne inputNew "9" 42).1.role = inputNew.role ∧
    (createEmployee storeOne inputNew "9" 42).1.salary = inputNew.salary ∧
    (createEmployee storeOne inputNew "9" 42).1.status = inputNew.status ∧
    (createEmployee storeOne inputNew "9" 42).1.avatar = inputNew.avatar ∧
    (createEmployee storeOne inputNew "9" 42).1.employeeId
      = inputNew.employeeId) :=
  ⟨by decide, claim4_create_then_get storeOne inputNew "9" 42 (by decide)⟩

/-- C5: for an id with no entry in the store, `getEmployee` returns
`none`, `updateEmployee` returns `none`, and `deleteEmployee` returns
`false`; all three are total functions, so absence is always a normal
return value. -/
theorem claim5_absent_id_operations (m : EmployeeMap) (id : String)
    (u : EmployeePatch) (h : idAbsent m id) :
    getEmployee m id = none ∧
    (updateEmployee m id u).1 = none ∧
    (deleteEmployee m id).1 = false := by
  have hg : mapGet m id = none := mapGet_of_absent m id h
  refine ⟨hg, ?_, mapDelete_of_absent m id h⟩
  unfold updateEmployee
  rw [hg]

/-- C5, witness: the theorem applied to the one-record store and the
absent id `"2"`. -/
theorem claim5_witness :
    idAbsent storeOne "2" ∧
    (getEmployee storeOne "2" = none ∧
      (updateEmployee storeOne "2" patchNameSalary).1 = none ∧
      (deleteEmployee storeOne "2").1 = false) :=
  ⟨by decide, claim5_absent_id_operations storeOne "2" patchNameSalary
    (by decide)⟩

/-- C6: for any row set, search term, sort state and positive page size,
concatenating the page slices for pages `1 .. totalPages` reconstructs
the full filtered-and-sorted sequence exactly — no row duplicated, no
row omitted. -/
theorem claim6_pagination_reconstructs (s : TableState)
    (h : 0 < s.pageSize) :
    (List.range (totalPages s)).flatMap
        (fun i => paginatedEmployees { s with currentPage := i + 1 })
      = filteredAndSortedEmployees s := by
  have hpage : ∀ i : Nat,
      paginatedEmployees { s with currentPage := i + 1 } =
        ((filteredAndSortedEmployees s).drop (i * s.pageSize)).take
          s.pageSize := by
    intro i
    unfold paginatedEmployees sliceJs
    have hfs : filteredAndSortedEmployees { s with currentPage := i + 1 }
        = filteredAndSortedEmployees s := rfl
    have h1 : ({ s with currentPage := i + 1 } : TableState).currentPage
        = i + 1 := rfl
    have h2 : ({ s with currentPage := i + 1 } : TableState).pageSize
        = s.pageSize := rfl
    rw [hfs, h1, h2]
    have h3 : i + 1 - 1 = i := rfl
    have h4 : (i + 1) * s.pageSize - i * s.pageSize = s.pageSize := by
      rw [Nat.succ_mul, Nat.add_sub_cancel_left]
    rw [h3, h4]
  rw [funext hpage, flatMapChunks]
  exact List.take_of_length_le
    (length_le_ceil_mul (filteredAndSortedEmployees s).length s.pageSize h)

/-- C6, witness: the theorem applied to the three-row, page-size-2
state: pages 1 and 2 concatenate to the full sequence. -/
theorem claim6_witness :
    0 < statePages.pageSize ∧
    (List.range (totalPages statePages)).flatMap
        (fun i => paginatedEmployees { statePages with currentPage := i + 1 })
      = filteredAndSortedEmployees statePages :=
  ⟨by decide, claim6_pagination_reconstructs statePages (by decide)⟩

/-- C7: with a positive page size, requesting a page whose offset lies
at or beyond the end of the filtered-and-sorted sequence yields an empty
slice; the page index is used as given, with no auto-correction and no
error. -/
theorem claim7_out_of_range_page_empty (s : TableState)
    (hps : 0 < s.pageSize)
    (h : (filteredAndSortedEmployees s).length
      ≤ (s.currentPage - 1) * s.pageSize) :
    paginatedEmployees s = [] := by
  unfold paginatedEmployees sliceJs
  rw [List.drop_eq_nil_of_le h]
  exact List.take_nil

/-- C7, witness: page size 10, five matching rows, page 2 requested —
the slice is empty. -/
theorem claim7_witness :
    0 < statePage2.pageSize ∧
    (filteredAndSortedEmployees statePage2).length
      ≤ (statePage2.currentPage - 1) * statePage2.pageSize ∧
    paginatedEmployees statePage2 = [] :=
  ⟨by decide, by decide,
   claim7_out_of_range_page_empty statePage2 (by decide) (by decide)⟩

/-- C8: filtering is monotone in the search term — if `s1` is a
substring of `s2`, every row kept by the filter for `s2` is kept by the
filter for `s1` — and the empty search term keeps every row. -/
theorem claim8_filter_monotone (employees : List Employee) (s1 s2 : String)
    (h : s1.toList <:+: s2.toList) (e : Employee)
    (he : e ∈ filteredEmployees employees s2) :
    e ∈ filteredEmployees employees s1 ∧
    filteredEmployees employees "" = employees := by
  constructor
  · rw [filteredEmployees, List.mem_filter] at he ⊢
    refine ⟨he.1, ?_⟩
    have hm := he.2
    rw [matchesSearch, Bool.or_eq_true, Bool.or_eq_true, Bool.or_eq_true]
      at hm
    rw [matchesSearch, Bool.or_eq_true, Bool.or_eq_true, Bool.or_eq_true]
    rcases hm with ((h1 | h2) | h3) | h4
    · exact Or.inl (Or.inl (Or.inl (includesCI_mono _ s1 s2 h h1)))
    · exact Or.inl (Or.inl (Or.inr (includesCI_mono _ s1 s2 h h2)))
    · exact Or.inl (Or.inr (includesCI_mono _ s1 s2 h h3))
    · exact Or.inr (includesCI_mono _ s1 s2 h h4)
  · rw [filteredEmployees, List.filter_eq_self]
    intro a _
    rw [matchesSearch, includesCI_empty, includesCI_empty, includesCI_empty,
      includesCI_empty]
    rfl

/-- C8, witness: `"gin"` is a substring of `"engineering"`; the
engineering row kept by the `"engineering"` filter is kept by the
`"gin"` filter, and the empty term keeps both rows. -/
theorem claim8_witness :
    ("gin".toList <:+: "engineering".toList) ∧
    empEng ∈ filteredEmployees [empEng, empSales] "engineering" ∧
    (empEng ∈ filteredEmployees [empEng, empSales] "gin" ∧
      filteredEmployees [empEng, empSales] "" = [empEng, empSales]) :=
  ⟨by decide, by decide,
   claim8_filter_monotone [empEng, empSales] "gin" "engineering" (by decide)
     empEng (by decide)⟩

/-- C9: in selection mode `single`, every row-selection event leaves the
selection set with at most one element, and selecting row A and then
row B leaves exactly the selection set containing B. -/
theorem claim9_single_mode_selection (s : TableState) (idA idB : String)
    (checked : Bool) (h : s.selectionMode = SelectionMode.single) :
    (handleRowSelection s idA checked).selectedRows.card ≤ 1 ∧
    (handleRowSelection (handleRowSelection s idA true) idB true).selectedRows
      = {idB} := by
  constructor
  · simp only [handleRowSelection, h]
    cases checked <;> simp
  · simp [handleRowSelection, h]

/-- C9, witness: the theorem applied to the mode-`single` state with
rows `"1"` then `"2"`. -/
theorem claim9_witness :
    stateSingle.selectionMode = SelectionMode.single ∧
    ((handleRowSelection stateSingle "1" true).selectedRows.card ≤ 1 ∧
      (handleRowSelection (handleRowSelection stateSingle "1" true) "2"
        true).selectedRows = {"2"}) :=
  ⟨rfl, claim9_single_mode_selection stateSingle "1" "2" true rfl⟩

/-- C10: in selection mode `none`, both a row-selection event and a
select-all event leave the selection set exactly unchanged, whatever the
prior selection set. -/
theorem claim10_none_mode_frame (s : TableState) (employeeId : String)
    (checked : Bool) (h : s.selectionMode = SelectionMode.none) :
    (handleRowSelection s employeeId checked).selectedRows = s.selectedRows ∧
    (handleSelectAll s checked).selectedRows = s.selectedRows := by
  constructor
  · simp [handleRowSelection, h]
  · simp [handleSelectAll, h]

/-- C10, witness: the theorem applied to the mode-`none` state with a
nonempty prior selection. -/
theorem claim10_witness :
    stateNone.selectionMode = SelectionMode.none ∧
    ((handleRowSelection stateNone "1" true).selectedRows
        = stateNone.selectedRows ∧
      (handleSelectAll stateNone true).selectedRows
        = stateNone.selectedRows) :=
  ⟨rfl, claim10_none_mode_frame stateNone "1" true rfl⟩

end DataGrid
